import Mathlib

/-!
Verification development for the GitHub scraper lambda (`app.py`):
a shallow embedding of its tree-snapshot data model, technology
detectors, per-repository classifier, pagination loop and statistics
aggregation, with theorems settling the specification claims.

Strings are modelled with Lean `String`s; the Python string methods used
by the source (`in`, `lower`, `endswith`, `startswith`, `split`, `strip`,
`splitlines`) are defined below over the character lists so that every
definition evaluates by `decide`.  Python's `.lower()` agrees with
`Char.toLower` on the ASCII file names and bodies the detectors look at.
-/

/-- Python's substring test `sub in s`. -/
def pyIn (sub s : String) : Bool :=
  (List.range (s.data.length + 1)).any fun i => sub.data.isPrefixOf (s.data.drop i)

/-- Python's `s.endswith(suffix)`. -/
def pyEndsWith (s suffix : String) : Bool := suffix.data.isSuffixOf s.data

/-- Python's `s.startswith(p)`. -/
def pyStartsWith (s p : String) : Bool := p.data.isPrefixOf s.data

/-- Python's `s.lower()`. -/
def pyLower (s : String) : String := ⟨s.data.map Char.toLower⟩

/-- Python's `s.strip()` (whitespace from both ends). -/
def pyStrip (s : String) : String :=
  ⟨((s.data.dropWhile Char.isWhitespace).reverse.dropWhile Char.isWhitespace).reverse⟩

def splitFirstAux (sep : List Char) : List Char → List Char → List Char
  | acc, [] => acc.reverse
  | acc, c :: rest =>
    if sep.isPrefixOf (c :: rest) then acc.reverse else splitFirstAux sep (c :: acc) rest

/-- Python's `s.split(sep)[0]`: the part of `s` before the first occurrence of
`sep` (all of `s` if `sep` does not occur). -/
def pySplitFirst (s sep : String) : String := ⟨splitFirstAux sep.data [] s.data⟩

def splitLinesAux : List Char → List Char → List String
  | acc, [] => [⟨acc.reverse⟩]
  | acc, '\r' :: '\n' :: rest => ⟨acc.reverse⟩ :: splitLinesAux [] rest
  | acc, '\n' :: rest => ⟨acc.reverse⟩ :: splitLinesAux [] rest
  | acc, '\r' :: rest => ⟨acc.reverse⟩ :: splitLinesAux [] rest
  | acc, c :: rest => splitLinesAux (c :: acc) rest

/-- Python's `s.splitlines()` for `\n`, `\r\n` and `\r` separators.  Python
drops a final empty line; the callers below filter empty lines anyway, so the
trailing `""` our version keeps is inert. -/
def pySplitlines (s : String) : List String := splitLinesAux [] s.data

/-- Python's `list(set(xs))` for string lists.  The order Python produces is
unspecified; we keep deduplication and membership, which is all the claims use. -/
def pySet (l : List String) : List String := l.dedup

/-- Truthiness of an optional string (Python: `None` and `""` are falsy). -/
def truthyStr : Option String → Bool
  | none => false
  | some s => !s.isEmpty

mutual
/-- A GraphQL `object` value attached to a tree entry: a Blob selection
(`{"text": ...}`), a Tree selection (`{"entries": ...}`), or the empty
dictionary `{}` that the bottom-depth Tree fragments produce. -/
inductive Obj : Type where
  | blobObj : Option String → Obj
  | treeObj : Option (List Entry) → Obj
  | emptyObj : Obj

/-- One entry of a repository tree snapshot: `{name, type, object}`. -/
inductive Entry : Type where
  | mk : String → String → Option Obj → Entry
end

def Entry.name : Entry → String
  | .mk n _ _ => n

def Entry.etype : Entry → String
  | .mk _ t _ => t

def Entry.object : Entry → Option Obj
  | .mk _ _ o => o

/-- Truthiness of `entry.get("object")`: absent and `{}` are falsy. -/
def objTruthy : Option Obj → Bool
  | none => false
  | some .emptyObj => false
  | some _ => true

/-- Python `entry.get("object") and entry["object"].get("text")`: the text,
when the object is truthy and the text itself is truthy. -/
def entryTruthyText (e : Entry) : Option String :=
  match e.object with
  | some (.blobObj (some t)) => if t.isEmpty then none else some t
  | _ => none

/-- Python `entry.get("object") and entry["object"].get("entries")`: the child
list, when the object is truthy and the list is truthy (non-empty). -/
def entryTruthyEntries (e : Entry) : Option (List Entry) :=
  match e.object with
  | some (.treeObj (some (l@(_ :: _)))) => some l
  | _ => none

/-- Python `entry["object"]["text"]`: raises when the object is `None` or is
not a Blob selection (no `"text"` key). -/
def entryIndexText (e : Entry) : Except String (Option String) :=
  match e.object with
  | none => .error "TypeError: NoneType is not subscriptable"
  | some (.blobObj t) => .ok t
  | some (.treeObj _) => .error "KeyError: text"
  | some .emptyObj => .error "KeyError: text"

/-- Python `entry["object"]["entries"]`: raises when the object is `None` or is
not a Tree selection (no `"entries"` key). -/
def entryIndexEntries (e : Entry) : Except String (Option (List Entry)) :=
  match e.object with
  | none => .error "TypeError: NoneType is not subscriptable"
  | some (.treeObj es) => .ok es
  | some (.blobObj _) => .error "KeyError: entries"
  | some .emptyObj => .error "KeyError: entries"

deriving instance DecidableEq for Except

/-! ## The detector set (`check_*` functions of `app.py`) -/

/-- The body of the `for entry in entries` loop of `check_infrastructure_files`
(the appends performed for one entry, following the source's `if`/`elif` chain). -/
def iacStep (acc : List String) (e : Entry) : List String :=
  if pyEndsWith e.name ".tf" || e.name == "terraform" then
    acc ++ ["Terraform"]
  else if pyEndsWith e.name ".yaml" || pyEndsWith e.name ".yml" || pyEndsWith e.name ".json" then
    match entryTruthyText e with
    | some t =>
      let content := pyLower t
      if pyIn "awstemplate" content || pyIn "cloudformation" content then
        acc ++ ["CloudFormation"]
      else acc
    | none => acc
  else if pyEndsWith e.name ".yaml" || pyEndsWith e.name ".yml" then
    match entryTruthyText e with
    | some t =>
      let content := pyLower t
      if pyIn "kind: deployment" content || pyIn "kind: service" content then
        acc ++ ["Kubernetes"]
      else acc
    | none => acc
  else if e.name == "ansible" || (pyEndsWith e.name ".yml" && pyIn "playbook" (pyLower e.name)) then
    acc ++ ["Ansible"]
  else acc

/-- `check_infrastructure_files(entries)` from `app.py`. -/
def check_infrastructure_files : Option (List Entry) → List String
  | none => []
  | some entries => pySet (entries.foldl iacStep [])

/-- The loop body of `check_cloud_providers` (file-based signals). -/
def cloudStep (acc : List String) (e : Entry) : List String :=
  if e.name == "template.yaml" || e.name == "cloudformation" || e.name == "cdk.json" then
    acc ++ ["AWS"]
  else if pyEndsWith e.name ".tf" then
    match entryTruthyText e with
    | some t => if pyIn "provider \"aws\"" (pyLower t) then acc ++ ["AWS"] else acc
    | none => acc
  else if e.name == "gcp" || pyEndsWith e.name ".bicep" then
    acc ++ ["GCP"]
  else if pyEndsWith e.name ".tf" then
    -- unreachable: the second branch already matched every `.tf` name;
    -- translated faithfully from the source's `elif` chain
    match entryTruthyText e with
    | some t => if pyIn "provider \"google\"" (pyLower t) then acc ++ ["GCP"] else acc
    | none => acc
  else if pyEndsWith e.name ".json" || pyEndsWith e.name ".bicep" then
    match entryTruthyText e with
    | some t =>
      let content := pyLower t
      if pyIn "microsoft.azure" content || pyIn ".azure." content then acc ++ ["Azure"] else acc
    | none => acc
  else acc

/-- The README scan at the end of `check_cloud_providers` (guarded by the
truthiness of `readme_content`). -/
def cloudReadmeScan (acc : List String) (readme_content : Option String) : List String :=
  if truthyStr readme_content then
    match readme_content with
    | some rc =>
      let readme_lower := pyLower rc
      let acc := if ["aws", "amazon web services", "cloudformation", "boto3"].any
          (fun term => pyIn term readme_lower) then acc ++ ["AWS"] else acc
      let acc := if ["gcp", "google cloud", "gcloud", "google.cloud"].any
          (fun term => pyIn term readme_lower) then acc ++ ["GCP"] else acc
      if ["azure", "microsoft azure", "azure cli"].any
          (fun term => pyIn term readme_lower) then acc ++ ["Azure"] else acc
    | none => acc
  else acc

/-- `check_cloud_providers(entries, readme_content)` from `app.py`. -/
def check_cloud_providers (entries : Option (List Entry)) (readme_content : Option String) :
    List String :=
  match entries with
  | none => []
  | some es => pySet (cloudReadmeScan (es.foldl cloudStep []) readme_content)

/-- The loop body of `check_ci_cd`. -/
def ciCdStep (acc : List String) (e : Entry) : List String :=
  if e.name == ".github" then
    match entryTruthyEntries e with
    | some gh_entries =>
      if gh_entries.any (fun gh => gh.name == "workflows") then acc ++ ["GitHub Actions"] else acc
    | none => acc
  else if e.name == "Jenkinsfile" || e.name == "jenkins" then
    acc ++ ["Jenkins"]
  else if e.name == ".circleci" then
    acc ++ ["CircleCI"]
  else if e.name == ".travis.yml" then
    acc ++ ["Travis CI"]
  else if e.name == "ci" then
    match entryTruthyEntries e with
    | some ci_entries =>
      if ci_entries.any (fun ci => pyIn "pipeline.yml" ci.name) then acc ++ ["Concourse"] else acc
    | none => acc
  else acc

/-- `check_ci_cd(entries)` from `app.py`. -/
def check_ci_cd : Option (List Entry) → List String
  | none => []
  | some entries => pySet (entries.foldl ciCdStep [])

def doc_directories : List String := ["docs", ".docs", "documentation", "guides"]

def doc_tools : List (String × String) :=
  [("_config.yml", "Jekyll"), ("conf.py", "Sphinx"), ("mkdocs.yml", "MkDocs"),
   ("docusaurus.config.js", "Docusaurus")]

/-- The loop body of `check_documentation`.  The markdown count indexes
`entry["object"]["entries"]` without a `.get` guard on the key, so it can raise
(`Except.error`) on a Tree-typed entry whose object is not a Tree selection or
whose entry list is `None`. -/
def docStep (acc : List String) (e : Entry) : Except String (List String) := do
  let acc := if doc_directories.contains e.name then acc ++ ["Documentation Directory"] else acc
  let acc := match doc_tools.find? (fun p => p.1 == e.name) with
    | some p => acc ++ [p.2]
    | none => acc
  if e.etype == "Tree" && objTruthy e.object then
    match entryIndexEntries e with
    | .error err => .error err
    | .ok none => .error "TypeError: NoneType is not iterable"
    | .ok (some children) =>
      let md_count := children.countP
        (fun c => pyEndsWith c.name ".md" && !(pyLower c.name == "readme.md"))
      if md_count > 0 then pure (acc ++ ["Markdown Documentation"]) else pure acc
  else
    pure acc

/-- `check_documentation(entries)` from `app.py` (fallible: see `docStep`). -/
def check_documentation : Option (List Entry) → Except String (List String)
  | none => .ok []
  | some entries => do
    let docs ← entries.foldlM docStep []
    pure (pySet docs)

def test_directories : List String := ["tests", "test", "spec"]

/-- The loop body of `check_testing`. -/
def testStep (acc : List String) (e : Entry) : List String :=
  let acc := if test_directories.contains e.name then acc ++ ["Test Directory"] else acc
  let acc := if pyStartsWith e.name "test_" || pyEndsWith e.name "_test.py" then
      acc ++ ["Test Files"]
    else acc
  if e.name == "package.json" || e.name == "requirements.txt" || e.name == "setup.py" then
    match entryTruthyText e with
    | some t =>
      let content := pyLower t
      if ["pytest", "unittest", "jest", "mocha", "cypress", "junit"].any
          (fun fw => pyIn fw content) then acc ++ ["Testing Framework"] else acc
    | none => acc
  else acc

/-- `check_testing(entries)` from `app.py`. -/
def check_testing : Option (List Entry) → List String
  | none => []
  | some entries => pySet (entries.foldl testStep [])

/-! ## Dependency extractors -/

/-- The nested `poetry` dictionary of `check_python_dependencies`. -/
structure Poetry where
  dependencies : List String
  dev_dependencies : List String
deriving DecidableEq

/-- The result dictionary of `check_python_dependencies`. -/
structure PyDeps where
  requirements : List String
  poetry : Poetry
  authors : List String
  package_manager : List String
deriving DecidableEq

def pyDepsInit : PyDeps := ⟨[], ⟨[], []⟩, [], []⟩

/-- One line of a `.txt` requirements file (`check_python_dependencies`). -/
def requirementsLineStep (acc : PyDeps) (line : String) : PyDeps :=
  let line := pyStrip line
  if !line.isEmpty && !pyStartsWith line "#" then
    if pyIn "==" line then
      { acc with requirements := acc.requirements ++ [pyStrip (pySplitFirst line "==")] }
    else if pyIn ">=" line then
      { acc with requirements := acc.requirements ++ [pyStrip (pySplitFirst line ">=")] }
    else acc
  else acc

/-- One line of the fallback (no `toml` library) `pyproject.toml` parser of
`check_python_dependencies`; the state carries the poetry tables and the
`in_dependencies` / `in_dev_dependencies` flags. -/
def poetryLineStep (st : Poetry × Bool × Bool) (line : String) : Poetry × Bool × Bool :=
  let (p, in_dependencies, in_dev_dependencies) := st
  if pyIn "[tool.poetry.dependencies]" line then (p, true, false)
  else if pyIn "[tool.poetry.group.dev.dependencies]" line then (p, false, true)
  else if pyStartsWith line "[" then (p, false, false)
  else if in_dependencies && pyIn "=" line then
    let package := pyStrip (pySplitFirst line "=")
    if !package.isEmpty && package != "python" then
      ({ p with dependencies := p.dependencies ++ [package] }, in_dependencies, in_dev_dependencies)
    else (p, in_dependencies, in_dev_dependencies)
  else if in_dev_dependencies && pyIn "=" line then
    let package := pyStrip (pySplitFirst line "=")
    if !package.isEmpty then
      ({ p with dev_dependencies := p.dev_dependencies ++ [package] },
       in_dependencies, in_dev_dependencies)
    else (p, in_dependencies, in_dev_dependencies)
  else (p, in_dependencies, in_dev_dependencies)

mutual
/-- The loop body of `process_entries` in `check_python_dependencies` for one
entry.  The `pyproject.toml` branch is modelled with the source's
`ImportError` fallback parser (the deployment does not ship the `toml`
library; the structured-TOML path is the other arm of the same `try`). -/
def pyEntryGo (recursive : Bool) (acc : PyDeps) (e : Entry) : PyDeps :=
  if pyEndsWith e.name ".txt" then
    match entryTruthyText e with
    | some content =>
      let acc := (pySplitlines content).foldl requirementsLineStep acc
      { acc with package_manager := acc.package_manager ++ ["pip"] }
    | none => acc
  else if e.name == "pyproject.toml" then
    match entryTruthyText e with
    | some content =>
      let st := (pySplitlines content).foldl poetryLineStep (acc.poetry, false, false)
      { acc with poetry := st.1, package_manager := acc.package_manager ++ ["poetry"] }
    | none => acc
  else if e.name == "setup.py" then
    match entryTruthyText e with
    | some content =>
      if pyIn "install_requires" (pyLower content) then
        { acc with package_manager := acc.package_manager ++ ["setuptools"] }
      else acc
    | none => acc
  else if e.name == "Pipfile" then
    match entryTruthyText e with
    | some _ => { acc with package_manager := acc.package_manager ++ ["pipenv"] }
    | none => acc
  else if e.name == "environment.yml" || e.name == "environment.yaml" then
    match entryTruthyText e with
    | some _ => { acc with package_manager := acc.package_manager ++ ["conda"] }
    | none => acc
  else if recursive && e.etype == "Tree" then
    match e with
    | .mk _ _ (some (.treeObj (some (l@(_ :: _))))) => pyListGo recursive acc l
    | _ => acc
  else acc

/-- `process_entries` of `check_python_dependencies` over an entry list. -/
def pyListGo (recursive : Bool) (acc : PyDeps) : List Entry → PyDeps
  | [] => acc
  | e :: rest => pyListGo recursive (pyEntryGo recursive acc e) rest
end

/-- `check_python_dependencies(entries, recursive)` from `app.py`. -/
def check_python_dependencies (entries : Option (List Entry)) (recursive : Bool) : PyDeps :=
  match entries with
  | none => pyDepsInit
  | some es =>
    let d := pyListGo recursive pyDepsInit es
    { d with requirements := pySet d.requirements, package_manager := pySet d.package_manager }

/-- The shape of a parsed `package.json` the extractor looks at: the key lists
of the `dependencies` / `devDependencies` dictionaries (in insertion order)
and the `packageManager` field, each `none` when the key is absent. -/
structure PackageJson where
  dependencies : Option (List String)
  devDependencies : Option (List String)
  packageManager : Option String
deriving DecidableEq

/-- The result dictionary of `check_javascript_dependencies`. -/
structure JsDeps where
  dependencies : List String
  dev_dependencies : List String
  frameworks : List String
  package_manager : List String
deriving DecidableEq

def jsDepsInit : JsDeps := ⟨[], [], [], []⟩

/-- `framework_indicators` from `check_javascript_dependencies`, in the
source dictionary's insertion order. -/
def framework_indicators : List (String × List String) :=
  [("react", ["react", "react-dom", "create-react-app", "next.js", "gatsby"]),
   ("vue", ["vue", "vuex", "vue-router", "@vue/cli", "nuxt"]),
   ("angular", ["@angular/core", "@angular/cli", "angular"]),
   ("svelte", ["svelte", "svelte-kit"]),
   ("express", ["express"]),
   ("nest", ["@nestjs/core"]),
   ("jquery", ["jquery"])]

/-- The framework scan run over one dependency-name list. -/
def jsFrameworkScan (acc : JsDeps) (deps : List String) : JsDeps :=
  deps.foldl (fun acc dep =>
    framework_indicators.foldl (fun acc fw =>
      if fw.2.any (fun indicator => pyIn indicator (pyLower dep)) then
        { acc with frameworks := acc.frameworks ++ [fw.1] }
      else acc) acc) acc

/-- The loop body of `check_javascript_dependencies` for one entry.
`json.loads` is the external JSON library, represented by its interface
`jl : String → Option PackageJson`; `jl t = none` is a parse exception,
which the source catches and answers with `continue`. -/
def jsStep (jl : String → Option PackageJson) (acc : JsDeps) (e : Entry) : JsDeps :=
  if e.name == "package.json" then
    match entryTruthyText e with
    | some t =>
      match jl t with
      | none => acc
      | some package_json =>
        let acc := match package_json.dependencies with
          | some new_deps => jsFrameworkScan
              { acc with dependencies := acc.dependencies ++ new_deps } new_deps
          | none => acc
        let acc := match package_json.devDependencies with
          | some new_dev_deps => jsFrameworkScan
              { acc with dev_dependencies := acc.dev_dependencies ++ new_dev_deps } new_dev_deps
          | none => acc
        let acc := { acc with package_manager := acc.package_manager ++ ["npm"] }
        match package_json.packageManager with
        | some pm =>
          if pyIn "yarn" pm then { acc with package_manager := acc.package_manager ++ ["yarn"] }
          else if pyIn "pnpm" pm then
            { acc with package_manager := acc.package_manager ++ ["pnpm"] }
          else acc
        | none => acc
    | none => acc
  else if e.name == "yarn.lock" then
    { acc with package_manager := acc.package_manager ++ ["yarn"] }
  else if e.name == "pnpm-lock.yaml" then
    { acc with package_manager := acc.package_manager ++ ["pnpm"] }
  else if e.name == "angular.json" then
    { acc with frameworks := acc.frameworks ++ ["angular"] }
  else if e.name == "vue.config.js" then
    { acc with frameworks := acc.frameworks ++ ["vue"] }
  else if e.name == "svelte.config.js" then
    { acc with frameworks := acc.frameworks ++ ["svelte"] }
  else if e.name == "next.config.js" then
    { acc with frameworks := acc.frameworks ++ ["react", "next.js"] }
  else if e.name == "gatsby-config.js" then
    { acc with frameworks := acc.frameworks ++ ["react", "gatsby"] }
  else acc

/-- `check_javascript_dependencies(entries)` from `app.py` (its `recursive`
parameter is never used by the source: the loop stays at the top level). -/
def check_javascript_dependencies (jl : String → Option PackageJson)
    (entries : Option (List Entry)) : JsDeps :=
  match entries with
  | none => jsDepsInit
  | some es =>
    let d := es.foldl (jsStep jl) jsDepsInit
    { dependencies := pySet d.dependencies, dev_dependencies := pySet d.dev_dependencies,
      frameworks := pySet d.frameworks, package_manager := pySet d.package_manager }

example :
    (check_python_dependencies
      (some [.mk "requirements.txt" "Blob" (some (.blobObj (some "flask==2.0.1\n")))])
      true).requirements = ["flask"] := by
  simp [check_python_dependencies, pyListGo, pyEntryGo, entryTruthyText, Entry.object,
    Entry.name, pyDepsInit]
  decide

example :
    (check_javascript_dependencies (fun _ => none)
      (some [.mk "package.json" "Blob" (some (.blobObj (some "not json")))])) = jsDepsInit := by
  decide

/-! ## Repository snapshot model

Timestamps are modelled as seconds since the epoch (`Int`): the source's
`datetime.fromisoformat` / subtraction / `timedelta.days` pipeline becomes
integer subtraction and floor division by 86400. -/

structure CommitAuthor where
  name : Option String
  email : Option String
deriving DecidableEq

/-- One node of `history(first: 1).nodes`. -/
structure HistNode where
  committedDate : Option Int
  author : Option CommitAuthor
deriving DecidableEq

/-- `defaultBranchRef.target` (a `Commit`). -/
structure Commit where
  committedDate : Option Int
  historyNodes : List HistNode
deriving DecidableEq

structure BranchRef where
  target : Option Commit
deriving DecidableEq

/-- One edge of `languages(first: 10)`. -/
structure LangEdge where
  size : Int
  name : String
deriving DecidableEq

structure Languages where
  edges : List LangEdge
  totalSize : Int
deriving DecidableEq

/-- The repository's `object(expression: "HEAD:")` Tree selection, when not
null: a dictionary with the (nullable) `entries` key. -/
structure RootObj where
  entries : Option (List Entry)

/-- One raw repository node of the GraphQL response. -/
structure Repo where
  name : String
  url : String
  homepageUrl : Option String
  visibility : String
  isArchived : Bool
  defaultBranchRef : Option BranchRef
  languages : Languages
  object : Option RootObj

/-! ## Per-repository classifier (the body of the `for repo in repos` loop) -/

structure LangInfo where
  name : String
  size : Int
  percentage : ℚ
deriving DecidableEq

structure AuthorInfo where
  name : Option String
  email : String
deriving DecidableEq

structure Technologies where
  languages : List LangInfo
  infrastructure_as_code : List String
  cloud_providers : List String
  ci_cd : List String
  documentation : List String
  testing : List String
  python_dependencies : Option PyDeps
  javascript_dependencies : Option JsDeps
deriving DecidableEq

/-- The `repo_info` record the classifier appends to `all_repos`. -/
structure RepoInfo where
  name : String
  url : String
  visibility : String
  is_archived : Bool
  github_pages_url : Option String
  last_commit : Option Int
  last_commit_author : Option AuthorInfo
  technologies : Technologies
deriving DecidableEq

/-- `last_commit_date` extraction (guarded by `.get`, hence total). -/
def getLastCommitDate (repo : Repo) : Option Int :=
  match repo.defaultBranchRef with
  | some br =>
    match br.target with
    | some c => c.committedDate
    | none => none
  | none => none

/-- The running state of the language loop: the `languages` list, the
`has_python` / `has_javascript` gates and the (ultimately discarded) `IAC`
list the loop builds from `HCL` / `Dockerfile` edges. -/
structure LangState where
  languages : List LangInfo
  has_python : Bool
  has_javascript : Bool
  IAC : List String
deriving DecidableEq

def langStateInit : LangState := ⟨[], false, false, []⟩

/-- One iteration of the language loop (statistics-dictionary updates, which
no claim touches, are omitted). -/
def langEdgeStep (total_size : Int) (st : LangState) (edge : LangEdge) : LangState :=
  let lang_name := edge.name
  let st := if lang_name == "Python" then { st with has_python := true } else st
  let st := if lang_name == "JavaScript" || lang_name == "TypeScript" then
      { st with has_javascript := true } else st
  let st := if lang_name == "HCL" then { st with IAC := st.IAC ++ ["Terraform"] } else st
  let st := if lang_name == "Dockerfile" then { st with IAC := st.IAC ++ ["Docker"] } else st
  let percentage : ℚ := (edge.size : ℚ) / (total_size : ℚ) * 100
  { st with languages := st.languages ++ [⟨lang_name, edge.size, percentage⟩] }

/-- The language loop: skipped entirely when `edges` is falsy; raises
`ZeroDivisionError` when a percentage is computed against `totalSize = 0`. -/
def processLanguages (l : Languages) : Except String LangState :=
  if l.edges.isEmpty then .ok langStateInit
  else if l.totalSize == 0 then .error "ZeroDivisionError: division by zero"
  else .ok (l.edges.foldl (langEdgeStep l.totalSize) langStateInit)

/-- The README / Makefile extraction loop (lines 700-705): both lookups index
`entry["object"]["text"]` without a guard, so they can raise; a later match
overwrites an earlier one. -/
def readmeMakefileStep (acc : Option String × Option String) (e : Entry) :
    Except String (Option String × Option String) := do
  let acc ← if pyLower e.name == "readme.md" then do
      let t ← entryIndexText e
      pure (t, acc.2)
    else pure acc
  if pyLower e.name == "makefile" then do
    let t ← entryIndexText e
    pure (acc.1, t)
  else pure acc

def extractReadmeMakefile (entriesOpt : Option (List Entry)) :
    Except String (Option String × Option String) :=
  match entriesOpt with
  | some (es@(_ :: _)) => es.foldlM readmeMakefileStep (none, none)
  | _ => .ok (none, none)

def documentation_list : List String := ["Confluence", "MKDocs", "Sphinx", "ReadTheDocs"]

def cloud_services_list : List String := ["AWS", "Azure", "GCP"]

/-- The README paired positional scan (lines 707-713): documentation-tool
names zipped with cloud-provider names; `zip` truncates to the shorter list,
so `ReadTheDocs` is never scanned.  Its results (`docs`, `cloud`) are local
variables of the classifier. -/
def readmePairedScan (readme_content : Option String) : List String × List String :=
  match readme_content with
  | none => ([], [])
  | some rc =>
    (documentation_list.zip cloud_services_list).foldl
      (fun (acc : List String × List String) p =>
        let acc := if pyIn (pyLower p.1) (pyLower rc) then (acc.1 ++ [p.1], acc.2) else acc
        if pyIn (pyLower p.2) (pyLower rc) then (acc.1, acc.2 ++ [p.2]) else acc)
      ([], [])

def frameworks_list : List String :=
  ["React", "Angular", "Vue", "Django", "Streamlit", "Flask", "Spring", "Hibernate",
   "Express", "Next.js", "Play", "Akka", "Lagom"]

/-- The Makefile framework scan (lines 715-718); its result is a local
variable of the classifier. -/
def makefileScan (makefile_content : Option String) : List String :=
  match makefile_content with
  | none => []
  | some mc => frameworks_list.filter (fun fw => pyIn (pyLower fw) (pyLower mc))

/-- One iteration of the classifier-local `.github` / `ci` loop (lines
720-733): both branches index `entry["object"]["entries"]` unguarded. -/
def localCiCdStep (acc : List String) (e : Entry) : Except String (List String) := do
  let acc ← if e.name == ".github" then do
      let esOpt ← entryIndexEntries e
      match esOpt with
      | some (ghs@(_ :: _)) =>
        pure (if ghs.any (fun g => g.name == "workflows") then acc ++ ["GitHub Actions"] else acc)
      | _ => pure acc
    else pure acc
  if e.name == "ci" then do
    let esOpt ← entryIndexEntries e
    match esOpt with
    | some (cis@(_ :: _)) =>
      pure (if cis.any (fun c => pyIn "pipeline.yml" c.name) then acc ++ ["Concourse"] else acc)
    | _ => pure acc
  else pure acc

def localCiCd (entriesOpt : Option (List Entry)) : Except String (List String) :=
  match entriesOpt with
  | some (es@(_ :: _)) => es.foldlM localCiCdStep []
  | _ => .ok []

/-- The whole `if repo["object"] is not None:` block (lines 694-733).  Returns
`some (readme_content, makefile_content)` when the block ran (binding the two
locals) and `none` when the root tree object is null, in which case the two
locals are left unbound. -/
def readmeBlock (repo : Repo) : Except String (Option (Option String × Option String)) :=
  match repo.object with
  | none => .ok none
  | some o => do
    let rm ← extractReadmeMakefile o.entries
    let _docs_cloud := readmePairedScan rm.1
    let _frameworks := makefileScan rm.2
    let _local_ci_cd ← localCiCd o.entries
    pure (some rm)

/-- The `last_commit_author` expression of `repo_info` (lines 748-766):
unguarded indexing into `target.history.nodes[0].author`, redacting the email
when it contains the no-reply proxy domain. -/
def computeAuthor (repo : Repo) : Except String (Option AuthorInfo) :=
  match repo.defaultBranchRef with
  | none => .ok none
  | some br =>
    match br.target with
    | none => .error "TypeError: NoneType is not subscriptable"
    | some c =>
      match c.historyNodes with
      | [] => .error "IndexError: list index out of range"
      | node :: _ =>
        match node.author with
        | none => .error "TypeError: NoneType is not subscriptable"
        | some a =>
          match a.email with
          | none => .error "TypeError: argument of type NoneType is not iterable"
          | some email =>
            .ok (some
              { name := a.name
                email := if pyIn "users.noreply.github.com" email then "redacted" else email })

/-- The `github_pages_url` expression of `repo_info`. -/
def githubPagesUrl (repo : Repo) : Option String :=
  match repo.homepageUrl with
  | some u => if !u.isEmpty && pyIn "github.io" u then some u else none
  | none => none

/-- `repo["object"]["entries"] if repo["object"] else None`: the argument every
detector receives. -/
def rootEntriesArg (repo : Repo) : Option (List Entry) :=
  match repo.object with
  | some o => o.entries
  | none => none

/-- The classifier body for one repository (the `try` block of the
`for repo in repos` loop, after the counting statements): either the
`repo_info` record appended to `all_repos`, or the exception that makes the
classifier drop the repository.  `jl` is the external `json.loads`. -/
def processRepo (jl : String → Option PackageJson) (repo : Repo) : Except String RepoInfo :=
  let last_commit_date := getLastCommitDate repo
  match processLanguages repo.languages with
  | .error err => .error err
  | .ok ls =>
    let entriesArg := rootEntriesArg repo
    match readmeBlock repo with
    | .error err => .error err
    | .ok bound =>
      match computeAuthor repo with
      | .error err => .error err
      | .ok last_commit_author =>
        match bound with
        | none => .error "UnboundLocalError: readme_content referenced before assignment"
        | some (readme_content, _makefile_content) =>
          match check_documentation entriesArg with
          | .error err => .error err
          | .ok docs =>
            .ok {
              name := repo.name
              url := repo.url
              visibility := repo.visibility
              is_archived := repo.isArchived
              github_pages_url := githubPagesUrl repo
              last_commit := last_commit_date
              last_commit_author := last_commit_author
              technologies := {
                languages := ls.languages
                infrastructure_as_code := check_infrastructure_files entriesArg
                cloud_providers := check_cloud_providers entriesArg readme_content
                ci_cd := check_ci_cd entriesArg
                documentation := docs
                testing := check_testing entriesArg
                python_dependencies :=
                  if ls.has_python then some (check_python_dependencies entriesArg true) else none
                javascript_dependencies :=
                  if ls.has_javascript then some (check_javascript_dependencies jl entriesArg)
                  else none } }

/-! ## Pagination harness and run-level aggregation -/

/-- One page of the repository query. -/
structure PageData where
  hasNextPage : Bool
  endCursor : Option String
  nodes : List Repo

/-- One transport response: a non-success response (`fail`), a success whose
body carries a GraphQL error list (`errors`), or a good page. -/
inductive QLResult : Type where
  | fail : QLResult
  | errors : QLResult
  | okResp : PageData → QLResult

/-- The pagination loop (lines 562-575 and 803-805), fed the successive
transport responses: breaks with whatever was accumulated on a non-success
response or an error-carrying body, stops after a page whose `hasNextPage` is
false, and otherwise continues with the next response. -/
def collectRepos : List QLResult → List Repo
  | [] => []
  | r :: rest =>
    match r with
    | .fail => []
    | .errors => []
    | .okResp page => page.nodes ++ (if page.hasNextPage then collectRepos rest else [])

/-- The statistics counters (lines 550-560), updated by the counting
statements at the top of the per-repository `try` block — before any
statement of the classifier that can raise. -/
structure Counters where
  total_repos : Int
  private_repos : Int
  public_repos : Int
  internal_repos : Int
  archived_repos : Int
  archived_private : Int
  archived_public : Int
  archived_internal : Int
deriving DecidableEq

def countersInit : Counters := ⟨0, 0, 0, 0, 0, 0, 0, 0⟩

/-- The counting statements (lines 579-597) for one repository node. -/
def countRepo (c : Counters) (repo : Repo) : Counters :=
  let c := { c with total_repos := c.total_repos + 1 }
  let c := if repo.isArchived then
      let c := { c with archived_repos := c.archived_repos + 1 }
      if repo.visibility == "PRIVATE" then { c with archived_private := c.archived_private + 1 }
      else if repo.visibility == "PUBLIC" then { c with archived_public := c.archived_public + 1 }
      else if repo.visibility == "INTERNAL" then
        { c with archived_internal := c.archived_internal + 1 }
      else c
    else c
  if repo.visibility == "PRIVATE" then { c with private_repos := c.private_repos + 1 }
  else if repo.visibility == "PUBLIC" then { c with public_repos := c.public_repos + 1 }
  else if repo.visibility == "INTERNAL" then { c with internal_repos := c.internal_repos + 1 }
  else c

def countAll (repos : List Repo) : Counters := repos.foldl countRepo countersInit

/-- `(now - last_commit).days`: floor division of the difference in seconds. -/
def timedeltaDays (now t : Int) : Int := (now - t).fdiv 86400

/-- The per-record activity predicate of the `active_last_*` comprehensions.
The source re-reads the wall clock inside every comprehension; `now` models
the single report-generation instant. -/
def activeWithin (now : Int) (wantArchived : Bool) (days : Int) (ri : RepoInfo) : Bool :=
  match ri.last_commit with
  | none => false
  | some t =>
    (if wantArchived then ri.is_archived else !ri.is_archived)
      && decide (timedeltaDays now t ≤ days)

/-- One `stats_unarchived` / `stats_archived` block of the output. -/
structure StatsBlock where
  total : Int
  privateCount : Int
  publicCount : Int
  internalCount : Int
  active_last_month : Nat
  active_last_3months : Nat
  active_last_6months : Nat
deriving DecidableEq

/-- The `stats_unarchived` block (lines 832-876). -/
def statsUnarchived (now : Int) (c : Counters) (all_repos : List RepoInfo) : StatsBlock :=
  { total := c.total_repos - c.archived_repos
    privateCount := c.private_repos - c.archived_private
    publicCount := c.public_repos - c.archived_public
    internalCount := c.internal_repos - c.archived_internal
    active_last_month := all_repos.countP (fun r => activeWithin now false 30 r)
    active_last_3months := all_repos.countP (fun r => activeWithin now false 90 r)
    active_last_6months := all_repos.countP (fun r => activeWithin now false 180 r) }

/-- The `stats_archived` block (lines 877-921). -/
def statsArchived (now : Int) (c : Counters) (all_repos : List RepoInfo) : StatsBlock :=
  { total := c.archived_repos
    privateCount := c.archived_private
    publicCount := c.archived_public
    internalCount := c.archived_internal
    active_last_month := all_repos.countP (fun r => activeWithin now true 30 r)
    active_last_3months := all_repos.countP (fun r => activeWithin now true 90 r)
    active_last_6months := all_repos.countP (fun r => activeWithin now true 180 r) }

/-- The claim-relevant part of the output document: the `repositories` array
and the two stats blocks.  (The language / technology statistics dictionaries
and `metadata`, which no claim mentions, are further output fields.) -/
structure Output where
  repositories : List RepoInfo
  stats_unarchived : StatsBlock
  stats_archived : StatsBlock

/-- `all_repos`: classifier successes, in order; failures are logged and
dropped (lines 792-799). -/
def runRecords (jl : String → Option PackageJson) (repos : List Repo) : List RepoInfo :=
  repos.filterMap (fun r => (processRepo jl r).toOption)

/-- The whole run `get_repository_technologies` over the successive transport
responses: pagination, per-repository counting and classification, and the
assembly of the output document. -/
def runOutput (jl : String → Option PackageJson) (now : Int) (responses : List QLResult) :
    Output :=
  let repos := collectRepos responses
  let all_repos := runRecords jl repos
  let c := countAll repos
  { repositories := all_repos
    stats_unarchived := statsUnarchived now c all_repos
    stats_archived := statsArchived now c all_repos }

example : check_infrastructure_files (some [.mk "main.tf" "Blob" none]) = ["Terraform"] := by
  decide

example :
    check_infrastructure_files
      (some [.mk "deploy.yaml" "Blob" (some (.blobObj (some "kind: deployment")))]) = [] := by
  decide

example :
    check_ci_cd (some [.mk ".github" "Tree"
      (some (.treeObj (some [.mk "workflows" "Tree" none])))]) = ["GitHub Actions"] := by
  decide

example :
    check_documentation (some [.mk "docs" "Blob" none]) = .ok ["Documentation Directory"] := by
  decide

/-! ## Concrete inputs used by the claim theorems and witnesses -/

/-- A `json.loads` oracle under which every body fails to parse. -/
def jlNone : String → Option PackageJson := fun _ => none

/-- A YAML manifest entry whose body is a Kubernetes Deployment. -/
def kubeYamlEntry : Entry :=
  .mk "deploy.yaml" "Blob" (some (.blobObj (some "kind: deployment\nreplicas: 2")))

/-- A repository whose only language edge is `HCL` and whose root tree is
present but empty. -/
def repoHCL : Repo :=
  { name := "infra"
    url := "https://example.org/infra"
    homepageUrl := none
    visibility := "PUBLIC"
    isArchived := false
    defaultBranchRef := none
    languages := { edges := [⟨100, "HCL"⟩], totalSize := 100 }
    object := some { entries := some [] } }

/-- A repository whose root tree holds a `README.md` blob naming Confluence. -/
def repoConfluence : Repo :=
  { name := "docs-repo"
    url := "https://example.org/docs-repo"
    homepageUrl := none
    visibility := "PUBLIC"
    isArchived := false
    defaultBranchRef := none
    languages := { edges := [], totalSize := 0 }
    object := some
      ⟨some [.mk "README.md" "Blob" (some (.blobObj (some "We document in Confluence.")))]⟩ }

/-- A repository whose last-commit author email is literally `"redacted"`. -/
def repoRedacted : Repo :=
  { name := "odd-email"
    url := "https://example.org/odd-email"
    homepageUrl := none
    visibility := "PUBLIC"
    isArchived := false
    defaultBranchRef := some
      { target := some
          { committedDate := some 1700000000
            historyNodes := [⟨some 1700000000, some ⟨some "Dev", some "redacted"⟩⟩] } }
    languages := { edges := [], totalSize := 0 }
    object := some { entries := some [] } }

def histNoreply : HistNode :=
  ⟨some 1700000000, some ⟨some "Dev", some "12345+dev@users.noreply.github.com"⟩⟩

def commitNoreply : Commit := ⟨some 1700000000, [histNoreply]⟩

def brNoreply : BranchRef := ⟨some commitNoreply⟩

/-- A repository whose last-commit author email is a no-reply proxy address. -/
def repoNoreply : Repo :=
  { name := "proxy-email"
    url := "https://example.org/proxy-email"
    homepageUrl := none
    visibility := "PUBLIC"
    isArchived := false
    defaultBranchRef := some brNoreply
    languages := { edges := [], totalSize := 0 }
    object := some { entries := some [] } }

/-- A repository whose root tree object is null. -/
def repoNullTree : Repo :=
  { name := "no-tree"
    url := "https://example.org/no-tree"
    homepageUrl := none
    visibility := "PUBLIC"
    isArchived := false
    defaultBranchRef := none
    languages := { edges := [], totalSize := 0 }
    object := none }

/-! ## C1 -/

/-- The `"Kubernetes"` append of `iacStep` sits in a dead branch: reaching it
needs a `.yaml`/`.yml` suffix with the `.yaml`/`.yml`/`.json` test just before
it having failed. -/
theorem iacStep_no_kubernetes (acc : List String) (e : Entry)
    (h : "Kubernetes" ∉ acc) : "Kubernetes" ∉ iacStep acc e := by
  unfold iacStep
  repeat' split
  all_goals simp_all [List.mem_append]
  all_goals split <;> simp_all [List.mem_append]

theorem foldl_iacStep_no_kubernetes (l : List Entry) :
    ∀ acc, "Kubernetes" ∉ acc → "Kubernetes" ∉ l.foldl iacStep acc := by
  induction l with
  | nil => intro acc h; simpa using h
  | cons e rest ih => intro acc h; exact ih _ (iacStep_no_kubernetes acc e h)

/-- `check_infrastructure_files` never returns `"Kubernetes"` at all: the
branch that would add it is unreachable. -/
theorem check_infrastructure_files_no_kubernetes (entries : Option (List Entry)) :
    (check_infrastructure_files entries).count "Kubernetes" = 0 := by
  cases entries with
  | none => rfl
  | some es =>
    rw [List.count_eq_zero]
    intro hmem
    exact foldl_iacStep_no_kubernetes es [] (by simp)
      (List.mem_dedup.mp hmem)

/-- C1: a `.yaml` blob whose body contains `kind: deployment` does NOT make
`check_infrastructure_files` return a set containing `"Kubernetes"` — the
`.yaml` suffix is captured by the CloudFormation branch first and the
Kubernetes branch is dead code; the detector returns the empty list here. -/
theorem c1_yaml_kind_deployment_yields_empty :
    check_infrastructure_files (some [kubeYamlEntry]) = [] := by decide

/-! ## C2 -/

/-- C2: the language loop computes `IAC = ["Terraform"]` for an `HCL` edge,
but that list never reaches the Repository Record — classification of
`repoHCL` succeeds with `technologies.infrastructure_as_code` not containing
`"Terraform"` (it is empty). -/
theorem c2_hcl_terraform_dropped :
    (processLanguages repoHCL.languages).toOption.map LangState.IAC = some ["Terraform"]
    ∧ (processRepo jlNone repoHCL).toOption.map
        (fun i => i.technologies.infrastructure_as_code) = some []
    ∧ (processRepo jlNone repoHCL).toOption.map
        (fun i => i.technologies.infrastructure_as_code.contains "Terraform") = some false := by
  refine ⟨by decide, by decide, by decide⟩

/-! ## C3 -/

/-- C3: the README paired positional scan over `repoConfluence`'s README does
produce the documentation label `"Confluence"`, but the local `docs` list is
discarded — the Repository Record's `technologies.documentation` is empty. -/
theorem c3_paired_scan_dropped :
    readmePairedScan (some "We document in Confluence.") = (["Confluence"], [])
    ∧ (processRepo jlNone repoConfluence).toOption.map
        (fun i => i.technologies.documentation) = some [] := by
  refine ⟨by decide, by decide⟩

/-! ## C9 -/

/-- C9: every detector answers its empty result on a null entry list, yet a
repository whose root tree object is null is NOT classified successfully: the
classifier raises `UnboundLocalError` (the README local is only assigned
inside the `if repo["object"] is not None:` block) and the repository is
dropped. -/
theorem c9_null_tree_detectors_empty_but_classify_raises :
    check_infrastructure_files none = []
    ∧ check_cloud_providers none none = []
    ∧ check_ci_cd none = []
    ∧ check_documentation none = .ok []
    ∧ check_testing none = []
    ∧ processRepo jlNone repoNullTree
        = .error "UnboundLocalError: readme_content referenced before assignment" := by
  refine ⟨rfl, rfl, rfl, rfl, rfl, by decide⟩

/-! ## C8 -/

/-- C8 counterexample: for `repoRedacted` the record's author email equals the
sentinel `"redacted"` although the API email does not contain the no-reply
proxy domain (the API email is literally `"redacted"`, passed through
unchanged) — refuting the claimed "if and only if". -/
theorem c8_redacted_without_proxy_domain :
    ((processRepo jlNone repoRedacted).toOption.bind
        (fun i => i.last_commit_author)).map AuthorInfo.email = some "redacted"
    ∧ pyIn "users.noreply.github.com" "redacted" = false := by
  refine ⟨by decide, by decide⟩

/-- C8 (amended): whenever classification of a repository with a default
branch ref succeeds, the record's author email is `"redacted"` IF the API
email contains `users.noreply.github.com`, and is the API email unchanged
otherwise (so it can also read `"redacted"` when that is the literal API
email). -/
theorem c8_email_redaction (jl : String → Option PackageJson) (repo : Repo)
    (br : BranchRef) (c : Commit) (node : HistNode) (a : CommitAuthor)
    (email : String) (info : RepoInfo)
    (hbr : repo.defaultBranchRef = some br)
    (ht : br.target = some c)
    (hn : c.historyNodes.head? = some node)
    (hau : node.author = some a)
    (he : a.email = some email)
    (hok : processRepo jl repo = .ok info) :
    info.last_commit_author
      = some ⟨a.name, if pyIn "users.noreply.github.com" email then "redacted" else email⟩ := by
  obtain ⟨tail, hlist⟩ : ∃ t, c.historyNodes = node :: t := by
    cases hl : c.historyNodes with
    | nil => rw [hl] at hn; exact absurd hn (by simp)
    | cons x xs =>
      rw [hl] at hn
      simp only [List.head?_cons, Option.some.injEq] at hn
      exact ⟨xs, by rw [hn]⟩
  have hca : computeAuthor repo
      = .ok (some ⟨a.name, if pyIn "users.noreply.github.com" email then "redacted"
                           else email⟩) := by
    simp only [computeAuthor, hbr, ht, hlist, hau, he]
  unfold processRepo at hok
  rw [hca] at hok
  repeat' split at hok
  all_goals try simp_all
  all_goals cases hdoc : check_documentation (rootEntriesArg repo)
  all_goals rw [hdoc] at hok
  all_goals try exact Except.noConfusion hok
  all_goals injection hok with h
  all_goals subst h
  all_goals simp_all

/-- The record classification produces for `repoNoreply`. -/
def infoNoreply : RepoInfo :=
  { name := "proxy-email"
    url := "https://example.org/proxy-email"
    visibility := "PUBLIC"
    is_archived := false
    github_pages_url := none
    last_commit := some 1700000000
    last_commit_author := some ⟨some "Dev", "redacted"⟩
    technologies :=
      { languages := []
        infrastructure_as_code := []
        cloud_providers := []
        ci_cd := []
        documentation := []
        testing := []
        python_dependencies := none
        javascript_dependencies := none } }

/-- C8 witness: `c8_email_redaction` applied to `repoNoreply`, whose API
email carries the proxy domain. -/
theorem c8_email_redaction_witness :
    infoNoreply.last_commit_author
      = some ⟨some "Dev",
          if pyIn "users.noreply.github.com" "12345+dev@users.noreply.github.com" then "redacted"
          else "12345+dev@users.noreply.github.com"⟩ :=
  c8_email_redaction jlNone repoNoreply brNoreply commitNoreply histNoreply
    ⟨some "Dev", some "12345+dev@users.noreply.github.com"⟩
    "12345+dev@users.noreply.github.com" infoNoreply rfl rfl (by decide) rfl rfl (by decide)

/-! ## Counting lemmas for the statistics claims -/

theorem countRepo_total (c : Counters) (r : Repo) :
    (countRepo c r).total_repos = c.total_repos + 1 := by
  unfold countRepo
  repeat' split
  all_goals rfl

theorem countRepo_arch (c : Counters) (r : Repo) :
    (countRepo c r).archived_repos
      = c.archived_repos + (if r.isArchived then 1 else 0) := by
  unfold countRepo
  repeat' split
  all_goals simp_all

theorem countRepo_vis_sum (c : Counters) (r : Repo)
    (h : r.visibility = "PRIVATE" ∨ r.visibility = "PUBLIC" ∨ r.visibility = "INTERNAL") :
    (countRepo c r).private_repos + (countRepo c r).public_repos
        + (countRepo c r).internal_repos
      = c.private_repos + c.public_repos + c.internal_repos + 1
    ∧ (countRepo c r).archived_private + (countRepo c r).archived_public
        + (countRepo c r).archived_internal
      = c.archived_private + c.archived_public + c.archived_internal
        + (if r.isArchived then 1 else 0) := by
  rcases h with h | h | h <;> cases ha : r.isArchived <;>
    simp [countRepo, h, ha] <;> try ring
  all_goals exact ⟨trivial, trivial⟩

theorem countFold_total (repos : List Repo) :
    ∀ c : Counters, (repos.foldl countRepo c).total_repos
      = c.total_repos + (repos.length : Int) := by
  induction repos with
  | nil => intro c; simp
  | cons r rest ih =>
    intro c
    rw [List.foldl_cons, ih, countRepo_total]
    simp only [List.length_cons]
    push_cast
    ring

theorem countFold_arch (repos : List Repo) :
    ∀ c : Counters, (repos.foldl countRepo c).archived_repos
      = c.archived_repos + (repos.countP (fun r => r.isArchived) : Int) := by
  induction repos with
  | nil => intro c; simp
  | cons r rest ih =>
    intro c
    rw [List.foldl_cons, ih, countRepo_arch, List.countP_cons]
    cases ha : r.isArchived <;> (try simp [ha]) <;> omega

theorem countFold_vis (repos : List Repo) :
    ∀ c : Counters,
      (∀ r ∈ repos,
        r.visibility = "PRIVATE" ∨ r.visibility = "PUBLIC" ∨ r.visibility = "INTERNAL") →
      (repos.foldl countRepo c).private_repos + (repos.foldl countRepo c).public_repos
          + (repos.foldl countRepo c).internal_repos
        = c.private_repos + c.public_repos + c.internal_repos + (repos.length : Int)
      ∧ (repos.foldl countRepo c).archived_private + (repos.foldl countRepo c).archived_public
          + (repos.foldl countRepo c).archived_internal
        = c.archived_private + c.archived_public + c.archived_internal
          + (repos.countP (fun r => r.isArchived) : Int) := by
  induction repos with
  | nil => intro c _; simp
  | cons r rest ih =>
    intro c h
    have hr := countRepo_vis_sum c r (h r (by simp))
    have ih' := ih (countRepo c r) (fun q hq => h q (by simp [hq]))
    rw [List.foldl_cons] at *
    constructor
    · rw [ih'.1, hr.1]
      simp only [List.length_cons]
      push_cast
      ring
    · rw [ih'.2, hr.2, List.countP_cons]
      cases ha : r.isArchived <;> (try simp [ha]) <;> omega

/-! ## C4 -/

/-- C4: when every fetched repository's visibility is one of PUBLIC, PRIVATE,
INTERNAL, the two stats blocks' totals sum to the number of repositories
fetched, and within each block the private/public/internal partition sums to
that block's total. -/
theorem c4_stats_partition (jl : String → Option PackageJson) (now : Int)
    (responses : List QLResult)
    (h : ∀ r ∈ collectRepos responses,
      r.visibility = "PRIVATE" ∨ r.visibility = "PUBLIC" ∨ r.visibility = "INTERNAL") :
    (runOutput jl now responses).stats_unarchived.total
        + (runOutput jl now responses).stats_archived.total
      = ((collectRepos responses).length : Int)
    ∧ (runOutput jl now responses).stats_unarchived.privateCount
        + (runOutput jl now responses).stats_unarchived.publicCount
        + (runOutput jl now responses).stats_unarchived.internalCount
      = (runOutput jl now responses).stats_unarchived.total
    ∧ (runOutput jl now responses).stats_archived.privateCount
        + (runOutput jl now responses).stats_archived.publicCount
        + (runOutput jl now responses).stats_archived.internalCount
      = (runOutput jl now responses).stats_archived.total := by
  have ht := countFold_total (collectRepos responses) countersInit
  have ha := countFold_arch (collectRepos responses) countersInit
  have hv := countFold_vis (collectRepos responses) countersInit h
  simp only [runOutput, statsUnarchived, statsArchived, countAll, countersInit] at *
  omega

/-- C4 witness: a one-page run with a single PUBLIC unarchived repository. -/
theorem c4_stats_partition_witness :
    (runOutput jlNone 0 [QLResult.okResp ⟨false, none, [repoHCL]⟩]).stats_unarchived.total
        + (runOutput jlNone 0 [QLResult.okResp ⟨false, none, [repoHCL]⟩]).stats_archived.total
      = ((collectRepos [QLResult.okResp ⟨false, none, [repoHCL]⟩]).length : Int)
    ∧ (runOutput jlNone 0
          [QLResult.okResp ⟨false, none, [repoHCL]⟩]).stats_unarchived.privateCount
        + (runOutput jlNone 0
            [QLResult.okResp ⟨false, none, [repoHCL]⟩]).stats_unarchived.publicCount
        + (runOutput jlNone 0
            [QLResult.okResp ⟨false, none, [repoHCL]⟩]).stats_unarchived.internalCount
      = (runOutput jlNone 0 [QLResult.okResp ⟨false, none, [repoHCL]⟩]).stats_unarchived.total
    ∧ (runOutput jlNone 0
          [QLResult.okResp ⟨false, none, [repoHCL]⟩]).stats_archived.privateCount
        + (runOutput jlNone 0
            [QLResult.okResp ⟨false, none, [repoHCL]⟩]).stats_archived.publicCount
        + (runOutput jlNone 0
            [QLResult.okResp ⟨false, none, [repoHCL]⟩]).stats_archived.internalCount
      = (runOutput jlNone 0 [QLResult.okResp ⟨false, none, [repoHCL]⟩]).stats_archived.total :=
  c4_stats_partition jlNone 0 [QLResult.okResp ⟨false, none, [repoHCL]⟩] (by decide)

/-! ## C5 -/

theorem activeWithin_mono (now : Int) (w : Bool) (d₁ d₂ : Int) (hd : d₁ ≤ d₂)
    (ri : RepoInfo) (h : activeWithin now w d₁ ri = true) :
    activeWithin now w d₂ ri = true := by
  cases hlc : ri.last_commit with
  | none => unfold activeWithin at h; rw [hlc] at h; simp at h
  | some t =>
    unfold activeWithin at h ⊢
    rw [hlc] at h ⊢
    simp only [Bool.and_eq_true, decide_eq_true_eq] at h ⊢
    exact ⟨h.1, le_trans h.2 hd⟩

/-- C5: within each stats block the activity-window counts are monotone —
every repository counted for the 30-day window satisfies the 90- and 180-day
predicates as well, so the counts are non-decreasing in the window length. -/
theorem c5_activity_windows_monotone (jl : String → Option PackageJson) (now : Int)
    (responses : List QLResult) :
    (runOutput jl now responses).stats_unarchived.active_last_month
        ≤ (runOutput jl now responses).stats_unarchived.active_last_3months
    ∧ (runOutput jl now responses).stats_unarchived.active_last_3months
        ≤ (runOutput jl now responses).stats_unarchived.active_last_6months
    ∧ (runOutput jl now responses).stats_archived.active_last_month
        ≤ (runOutput jl now responses).stats_archived.active_last_3months
    ∧ (runOutput jl now responses).stats_archived.active_last_3months
        ≤ (runOutput jl now responses).stats_archived.active_last_6months := by
  refine ⟨?_, ?_, ?_, ?_⟩ <;>
  · simp only [runOutput, statsUnarchived, statsArchived]
    exact List.countP_mono_left
      (fun ri _ h => activeWithin_mono now _ _ _ (by norm_num) ri h)

/-! ## C6 -/

theorem jsStep_bad_deps (jl : String → Option PackageJson) (e : Entry) (acc : JsDeps)
    (hbad : e.name = "package.json" → ∀ t, entryTruthyText e = some t → jl t = none) :
    (jsStep jl acc e).dependencies = acc.dependencies := by
  unfold jsStep
  by_cases hn : e.name = "package.json"
  · cases htt : entryTruthyText e with
    | none => simp [hn, htt]
    | some t => simp [hn, htt, hbad hn t htt]
  · have hb : (e.name == "package.json") = false := by
      simpa using hn
    rw [hb]
    simp only [Bool.false_eq_true, if_false]
    repeat' split
    all_goals simp

theorem jsFold_bad_deps (jl : String → Option PackageJson) (entries : List Entry) :
    (∀ e ∈ entries, e.name = "package.json" → ∀ t, entryTruthyText e = some t → jl t = none) →
    ∀ acc : JsDeps, (entries.foldl (jsStep jl) acc).dependencies = acc.dependencies := by
  induction entries with
  | nil => intro _ acc; rfl
  | cons e rest ih =>
    intro hbad acc
    rw [List.foldl_cons, ih (fun q hq => hbad q (by simp [hq])),
      jsStep_bad_deps jl e acc (hbad e (by simp))]

theorem check_js_bad_deps (jl : String → Option PackageJson) (entries : List Entry)
    (hbad : ∀ e ∈ entries, e.name = "package.json" →
      ∀ t, entryTruthyText e = some t → jl t = none) :
    (check_javascript_dependencies jl (some entries)).dependencies = [] := by
  simp only [check_javascript_dependencies]
  rw [jsFold_bad_deps jl entries hbad jsDepsInit]
  rfl

/-- C6: a JavaScript repository whose `package.json` bodies all fail to parse
classifies without raising (given the side conditions that make the rest of
the classifier succeed), its `javascript_dependencies.dependencies` is empty,
and the surrounding run processes every other repository exactly as it would
alone. -/
theorem c6_malformed_package_json (jl : String → Option PackageJson) (repo : Repo)
    (entries : List Entry) (ls : LangState) (rc mc : Option String)
    (au : Option AuthorInfo) (docs : List String) (l₁ l₂ : List Repo)
    (hobj : repo.object = some ⟨some entries⟩)
    (hl : processLanguages repo.languages = .ok ls)
    (hjs : ls.has_javascript = true)
    (hr : readmeBlock repo = .ok (some (rc, mc)))
    (ha : computeAuthor repo = .ok au)
    (hd : check_documentation (rootEntriesArg repo) = .ok docs)
    (hbad : ∀ e ∈ entries, e.name = "package.json" →
      ∀ t, entryTruthyText e = some t → jl t = none) :
    ∃ info, processRepo jl repo = .ok info
      ∧ info.technologies.javascript_dependencies.map JsDeps.dependencies = some []
      ∧ runRecords jl (l₁ ++ repo :: l₂) = runRecords jl l₁ ++ info :: runRecords jl l₂ := by
  have hent : rootEntriesArg repo = some entries := by
    simp [rootEntriesArg, hobj]
  have hok : processRepo jl repo = .ok
      { name := repo.name
        url := repo.url
        visibility := repo.visibility
        is_archived := repo.isArchived
        github_pages_url := githubPagesUrl repo
        last_commit := getLastCommitDate repo
        last_commit_author := au
        technologies :=
          { languages := ls.languages
            infrastructure_as_code := check_infrastructure_files (rootEntriesArg repo)
            cloud_providers := check_cloud_providers (rootEntriesArg repo) rc
            ci_cd := check_ci_cd (rootEntriesArg repo)
            documentation := docs
            testing := check_testing (rootEntriesArg repo)
            python_dependencies :=
              if ls.has_python then some (check_python_dependencies (rootEntriesArg repo) true)
              else none
            javascript_dependencies :=
              if ls.has_javascript then some (check_javascript_dependencies jl (rootEntriesArg repo))
              else none } } := by
    simp only [processRepo, hl, hr, ha, hd]
  refine ⟨_, hok, ?_, ?_⟩
  · simp only [hjs, if_true, hent]
    simp [check_js_bad_deps jl entries hbad]
  · simp [runRecords, List.filterMap_append, hok, Except.toOption]

def pkgEntryC6 : Entry := .mk "package.json" "Blob" (some (.blobObj (some "not valid json")))

/-- A JavaScript repository whose only manifest is a malformed `package.json`. -/
def repoC6 : Repo :=
  { name := "js-app"
    url := "https://example.org/js-app"
    homepageUrl := none
    visibility := "PUBLIC"
    isArchived := false
    defaultBranchRef := none
    languages := { edges := [⟨100, "JavaScript"⟩], totalSize := 100 }
    object := some ⟨some [pkgEntryC6]⟩ }

/-- C6 witness: `c6_malformed_package_json` at `repoC6` under a `json.loads`
that rejects every body, with an empty rest-of-run on both sides. -/
theorem c6_malformed_package_json_witness :
    ∃ info, processRepo jlNone repoC6 = .ok info
      ∧ info.technologies.javascript_dependencies.map JsDeps.dependencies = some []
      ∧ runRecords jlNone ([] ++ repoC6 :: []) =
          runRecords jlNone [] ++ info :: runRecords jlNone [] :=
  c6_malformed_package_json jlNone repoC6 [pkgEntryC6]
    ⟨[⟨"JavaScript", 100, 100⟩], false, true, []⟩ none none none [] [] []
    rfl
    (by simp [repoC6, processLanguages, langEdgeStep, langStateInit])
    rfl (by decide) (by decide) (by decide)
    (fun _ _ _ t _ => rfl)

/-! ## C7 -/

theorem collectRepos_failfast (bad : QLResult) (rest : List QLResult)
    (hbad : bad = QLResult.fail ∨ bad = QLResult.errors) :
    ∀ pages : List PageData, (∀ p ∈ pages, p.hasNextPage = true) →
      collectRepos (pages.map QLResult.okResp ++ bad :: rest)
        = (pages.map PageData.nodes).flatten := by
  intro pages
  induction pages with
  | nil =>
    intro _
    rcases hbad with h | h <;> subst h <;> simp [collectRepos]
  | cons p ps ih =>
    intro hnext
    have hp : p.hasNextPage = true := hnext p (by simp)
    simp [collectRepos, hp, ih (fun q hq => hnext q (by simp [hq]))]

/-- C7: when the transport answers some request with a non-success response or
an error-carrying body, the pagination loop stops right there — the run's
repository list (and the output document's `repositories`) covers exactly the
nodes of the pages before the failure, and later responses are never
consumed. -/
theorem c7_failfast_truncation (jl : String → Option PackageJson) (now : Int)
    (pages : List PageData) (bad : QLResult) (rest : List QLResult)
    (hnext : ∀ p ∈ pages, p.hasNextPage = true)
    (hbad : bad = QLResult.fail ∨ bad = QLResult.errors) :
    collectRepos (pages.map QLResult.okResp ++ bad :: rest)
        = (pages.map PageData.nodes).flatten
    ∧ (runOutput jl now (pages.map QLResult.okResp ++ bad :: rest)).repositories
        = runRecords jl ((pages.map PageData.nodes).flatten) := by
  have hcol := collectRepos_failfast bad rest hbad pages hnext
  exact ⟨hcol, by simp [runOutput, hcol]⟩

/-- C7 witness: one good page followed by a transport failure. -/
theorem c7_failfast_truncation_witness :
    collectRepos ([(⟨true, some "c1", [repoHCL]⟩ : PageData)].map QLResult.okResp
          ++ QLResult.fail :: [])
        = ([(⟨true, some "c1", [repoHCL]⟩ : PageData)].map PageData.nodes).flatten
    ∧ (runOutput jlNone 0 ([(⟨true, some "c1", [repoHCL]⟩ : PageData)].map QLResult.okResp
          ++ QLResult.fail :: [])).repositories
        = runRecords jlNone
            (([(⟨true, some "c1", [repoHCL]⟩ : PageData)].map PageData.nodes).flatten) :=
  c7_failfast_truncation jlNone 0 [⟨true, some "c1", [repoHCL]⟩] QLResult.fail []
    (by decide) (Or.inl rfl)

/-! ## C10 -/

theorem length_filterMap_lt_of_none {α β : Type} (f : α → Option β) :
    ∀ l : List α, (∃ a ∈ l, f a = none) → (l.filterMap f).length < l.length := by
  intro l
  induction l with
  | nil => rintro ⟨a, ha, _⟩; cases ha
  | cons x xs ih =>
    rintro ⟨a, ha, hfa⟩
    rcases List.mem_cons.mp ha with h | h
    · subst h
      rw [List.filterMap_cons, hfa]
      exact Nat.lt_succ_of_le (List.length_filterMap_le f xs)
    · rw [List.filterMap_cons]
      cases hfx : f x with
      | none => exact Nat.lt_succ_of_lt (ih ⟨a, h, hfa⟩)
      | some b =>
        simpa [List.length_cons, Nat.succ_lt_succ_iff] using ih ⟨a, h, hfa⟩

/-- C10: whenever some fetched repository's classification raises (after the
counting statements), the stats totals still count it, while the
`repositories` array omits it — so the summed totals strictly exceed the
array's length. -/
theorem c10_counted_but_dropped (jl : String → Option PackageJson) (now : Int)
    (responses : List QLResult)
    (hfail : ∃ r ∈ collectRepos responses, (processRepo jl r).toOption = none) :
    (runOutput jl now responses).stats_unarchived.total
        + (runOutput jl now responses).stats_archived.total
      = ((collectRepos responses).length : Int)
    ∧ ((runOutput jl now responses).repositories.length : Int)
        < ((collectRepos responses).length : Int) := by
  have ht := countFold_total (collectRepos responses) countersInit
  have hlen := length_filterMap_lt_of_none
    (fun r => (processRepo jl r).toOption) (collectRepos responses) hfail
  constructor
  · simp only [runOutput, statsUnarchived, statsArchived, countAll, countersInit] at *
    omega
  · simp only [runOutput, runRecords]
    exact_mod_cast hlen

/-- C10 witness: a run whose single repository has a null root tree, so its
classification raises `UnboundLocalError`: it is counted (totals sum to 1)
but the `repositories` array is empty. -/
theorem c10_counted_but_dropped_witness :
    (runOutput jlNone 0 [QLResult.okResp ⟨false, none, [repoNullTree]⟩]).stats_unarchived.total
        + (runOutput jlNone 0
            [QLResult.okResp ⟨false, none, [repoNullTree]⟩]).stats_archived.total
      = ((collectRepos [QLResult.okResp ⟨false, none, [repoNullTree]⟩]).length : Int)
    ∧ ((runOutput jlNone 0
          [QLResult.okResp ⟨false, none, [repoNullTree]⟩]).repositories.length : Int)
        < ((collectRepos [QLResult.okResp ⟨false, none, [repoNullTree]⟩]).length : Int) :=
  c10_counted_but_dropped jlNone 0 [QLResult.okResp ⟨false, none, [repoNullTree]⟩]
    (by decide)
